import Mathlib

/-!  Verification of the agentic tagging workflow (`src/graph.py`, `src/schemas.py`).

The Python source is embedded shallowly: every node of the LangGraph state
machine becomes a pure Lean function on a `ProposalState` record, the compiled
graph becomes a fuel-bounded interpreter `runGraph`, and the helper
`extract_json_robust` is embedded together with a model of `json.loads` and of
the one concrete regular expression the source uses.

Numeric modelling: the Python floats 0.5 / 0.3 / 0.2 / 0.65 are represented as
exact rationals.  On the reachable score lattice (multiples of 1/10) the IEEE
double roundoff of the Python sums is erased by `round(score, 2)` and never
changes a comparison against 0.65, so every observable value and branch agrees
with the float execution.  -/

namespace Tagging

/-! ## Characters that the house style cannot spell literally -/

/-- The backquote character, used by Markdown fences. -/
def btick : Char := Char.ofNat 96

/-- The opening curly brace. -/
def lbraceC : Char := Char.ofNat 123

/-- The closing curly brace. -/
def rbraceC : Char := Char.ofNat 125

/-- The single-quote character used by Python `repr` of strings. -/
def squoteC : Char := Char.ofNat 39

/-- The double-quote character. -/
def dquoteC : Char := Char.ofNat 34

/-- The backslash character. -/
def bslashC : Char := Char.ofNat 92

/-! ## A model of Python `json.loads`

Values keep numeric literals as their raw token (no float semantics is needed
by any claim).  The parser follows the JSON grammar that CPython's `json`
module accepts by default: the four JSON whitespace characters, strict strings
(unescaped control characters rejected), `true`/`false`/`null`, and the
CPython extensions `NaN`, `Infinity`, `-Infinity`.  -/

inductive Json where
  | null
  | bool (b : Bool)
  | num (raw : String)
  | str (s : String)
  | arr (elems : List Json)
  | obj (members : List (String × Json))

/-- JSON whitespace (the only characters `json.loads` skips between tokens). -/
def isJsonWs (c : Char) : Bool :=
  c = ' ' || c = '\t' || c = '\n' || c = '\r'

/-- Drop leading JSON whitespace. -/
def skipWs : List Char → List Char
  | [] => []
  | c :: cs => if isJsonWs c then skipWs cs else c :: cs

/-- Hexadecimal digit value, if any. -/
def hexVal (c : Char) : Option Nat :=
  if '0' ≤ c ∧ c ≤ '9' then some (c.toNat - 48)
  else if 'a' ≤ c ∧ c ≤ 'f' then some (c.toNat - 97 + 10)
  else if 'A' ≤ c ∧ c ≤ 'F' then some (c.toNat - 65 + 10)
  else none

/-- Translate a one-character JSON escape (everything except `\\u`). -/
def escChar (c : Char) : Option Char :=
  if c = dquoteC then some dquoteC
  else if c = bslashC then some bslashC
  else if c = '/' then some '/'
  else if c = 'b' then some (Char.ofNat 8)
  else if c = 'f' then some (Char.ofNat 12)
  else if c = 'n' then some '\n'
  else if c = 'r' then some '\r'
  else if c = 't' then some '\t'
  else none

/-- Body of a JSON string literal, positioned after the opening quote.
Returns the decoded content and the remainder after the closing quote.
Strict mode: an unescaped control character is an error.  -/
def parseStringBody : List Char → Option (List Char × List Char)
  | [] => none
  | c :: cs =>
    if c = dquoteC then some ([], cs)
    else if c = bslashC then
      match cs with
      | [] => none
      | 'u' :: h1 :: h2 :: h3 :: h4 :: cs4 =>
        match hexVal h1, hexVal h2, hexVal h3, hexVal h4 with
        | some a, some b, some c3, some d =>
          (parseStringBody cs4).map
            (fun p => (Char.ofNat (((a * 16 + b) * 16 + c3) * 16 + d) :: p.1, p.2))
        | _, _, _, _ => none
      | e :: cs2 =>
        match escChar e with
        | some d => (parseStringBody cs2).map (fun p => (d :: p.1, p.2))
        | none => none
    else if c.toNat < 32 then none
    else (parseStringBody cs).map (fun p => (c :: p.1, p.2))

/-- Digit span helper: longest digit run and the rest. -/
def digitSpan (cs : List Char) : List Char × List Char :=
  (cs.takeWhile Char.isDigit, cs.dropWhile Char.isDigit)

/-- Integer part of a JSON number per the grammar `0 | [1-9][0-9]*`. -/
def parseIntPart (cs : List Char) : Option (List Char × List Char) :=
  match cs with
  | '0' :: rest => some (['0'], rest)
  | c :: _ =>
    if c.isDigit then
      let p := digitSpan cs
      some (p.1, p.2)
    else none
  | [] => none

/-- Optional fractional part `.[0-9]+`. -/
def parseFracPart (cs : List Char) : Option (List Char × List Char) :=
  match cs with
  | '.' :: rest =>
    let p := digitSpan rest
    if p.1.isEmpty then none else some ('.' :: p.1, p.2)
  | _ => some ([], cs)

/-- Optional exponent part `[eE][+-]?[0-9]+`. -/
def parseExpPart (cs : List Char) : Option (List Char × List Char) :=
  match cs with
  | e :: rest =>
    if e = 'e' ∨ e = 'E' then
      let signed : List Char × List Char :=
        match rest with
        | s :: rest2 => if s = '+' ∨ s = '-' then ([s], rest2) else ([], rest)
        | [] => ([], [])
      let p := digitSpan signed.2
      if p.1.isEmpty then none else some (e :: signed.1 ++ p.1, p.2)
    else some ([], cs)
  | [] => some ([], cs)

/-- A JSON number token (sign, integer, fraction, exponent), kept raw. -/
def parseNumberToken (cs : List Char) : Option (List Char × List Char) :=
  let signed : List Char × List Char :=
    match cs with
    | '-' :: rest => (['-'], rest)
    | _ => ([], cs)
  match parseIntPart signed.2 with
  | none => none
  | some ip =>
    match parseFracPart ip.2 with
    | none => none
    | some fp =>
      match parseExpPart fp.2 with
      | none => none
      | some ep => some (signed.1 ++ ip.1 ++ fp.1 ++ ep.1, ep.2)

mutual

/-- Parse one JSON value (leading whitespace allowed); fuel-bounded. -/
def parseValue : Nat → List Char → Option (Json × List Char)
  | 0, _ => none
  | fuel + 1, cs =>
    match skipWs cs with
    | [] => none
    | c :: rest =>
      if c = dquoteC then
        (parseStringBody rest).map (fun p => (Json.str (String.mk p.1), p.2))
      else if c = lbraceC then
        match skipWs rest with
        | d :: rest2 =>
          if d = rbraceC then some (Json.obj [], rest2)
          else parseMembers fuel (d :: rest2)
        | [] => none
      else if c = '[' then
        match skipWs rest with
        | d :: rest2 =>
          if d = ']' then some (Json.arr [], rest2)
          else (parseItems fuel (d :: rest2)).map (fun p => (Json.arr p.1, p.2))
        | [] => none
      else if c = 't' then
        match rest with
        | 'r' :: 'u' :: 'e' :: rest2 => some (Json.bool true, rest2)
        | _ => none
      else if c = 'f' then
        match rest with
        | 'a' :: 'l' :: 's' :: 'e' :: rest2 => some (Json.bool false, rest2)
        | _ => none
      else if c = 'n' then
        match rest with
        | 'u' :: 'l' :: 'l' :: rest2 => some (Json.null, rest2)
        | _ => none
      else if c = 'N' then
        match rest with
        | 'a' :: 'N' :: rest2 => some (Json.num "NaN", rest2)
        | _ => none
      else if c = 'I' then
        match rest with
        | 'n' :: 'f' :: 'i' :: 'n' :: 'i' :: 't' :: 'y' :: rest2 =>
          some (Json.num "Infinity", rest2)
        | _ => none
      else if c = '-' then
        match rest with
        | 'I' :: 'n' :: 'f' :: 'i' :: 'n' :: 'i' :: 't' :: 'y' :: rest2 =>
          some (Json.num "-Infinity", rest2)
        | _ =>
          (parseNumberToken (c :: rest)).map (fun p => (Json.num (String.mk p.1), p.2))
      else if c.isDigit then
        (parseNumberToken (c :: rest)).map (fun p => (Json.num (String.mk p.1), p.2))
      else none

/-- Members of a JSON object, positioned at the first key; fuel-bounded. -/
def parseMembers : Nat → List Char → Option (Json × List Char)
  | 0, _ => none
  | fuel + 1, cs =>
    match skipWs cs with
    | c :: rest =>
      if c = dquoteC then
        match parseStringBody rest with
        | none => none
        | some (key, cs2) =>
          match skipWs cs2 with
          | ':' :: cs3 =>
            match parseValue fuel cs3 with
            | none => none
            | some (v, cs4) =>
              match skipWs cs4 with
              | ',' :: cs5 =>
                match parseMembers fuel cs5 with
                | some (Json.obj ms, cs6) =>
                  some (Json.obj ((String.mk key, v) :: ms), cs6)
                | _ => none
              | d :: cs5 =>
                if d = rbraceC then some (Json.obj [(String.mk key, v)], cs5)
                else none
              | [] => none
          | _ => none
      else none
    | [] => none

/-- Items of a JSON array, positioned at the first element; fuel-bounded. -/
def parseItems : Nat → List Char → Option (List Json × List Char)
  | 0, _ => none
  | fuel + 1, cs =>
    match parseValue fuel cs with
    | none => none
    | some (v, cs2) =>
      match skipWs cs2 with
      | ',' :: cs3 =>
        (parseItems fuel cs3).map (fun p => (v :: p.1, p.2))
      | ']' :: cs3 => some ([v], cs3)
      | _ => none

end

/-- Model of Python `json.loads`: the whole input must be one JSON value with
only whitespace around it; `none` models a raised `JSONDecodeError`.  -/
def json_loads (text : String) : Option Json :=
  match parseValue (text.length + 1) text.data with
  | some (v, rest) => if (skipWs rest).isEmpty then some v else none
  | none => none

/-! ## The regex of `extract_json_robust`

`re.search(r"begin-fence (?:json)? \s* ( brace .*? brace ) \s* end-fence", text, re.DOTALL)`
specialised to a backtracking matcher for this one pattern.  -/

/-- The three-backquote fence. -/
def fenceChars : List Char := [btick, btick, btick]

/-- The literal letters of the optional `json` tag. -/
def jsonTagChars : List Char := ['j', 's', 'o', 'n']

/-- Python `re` whitespace class for `str` patterns (`\s`): ASCII whitespace,
the information separators, and the Unicode space characters.  -/
def isPySpace (c : Char) : Bool :=
  [32, 9, 10, 13, 11, 12, 28, 29, 30, 31, 133, 160, 5760,
   8192, 8193, 8194, 8195, 8196, 8197, 8198, 8199, 8200, 8201, 8202,
   8232, 8233, 8239, 8287, 12288].contains c.toNat

/-- Does the closing fence (after optional whitespace) start here? -/
def fenceAfter (cs : List Char) : Bool :=
  fenceChars.isPrefixOf (cs.dropWhile isPySpace)

/-- Lazy scan of the group body: the shortest prefix whose following closing
brace is trailed by whitespace and the closing fence (semantics of the lazy
quantifier followed by the closing-brace literal).  -/
def findClose : List Char → Option (List Char)
  | [] => none
  | c :: rest =>
    if c = rbraceC ∧ fenceAfter rest then some []
    else (findClose rest).map (fun l => c :: l)

/-- Try the fenced-block pattern anchored at this position; returns capture
group 1 (the braces included).  When the `json` tag is present the optional
group must consume it: the non-consuming alternative then fails because the
letter j is neither whitespace nor an opening brace, so the match is
deterministic.  -/
def fenceMatchAt (cs : List Char) : Option (List Char) :=
  match cs with
  | b1 :: b2 :: b3 :: rest =>
    if b1 = btick ∧ b2 = btick ∧ b3 = btick then
      let rest1 := if jsonTagChars.isPrefixOf rest then rest.drop 4 else rest
      match rest1.dropWhile isPySpace with
      | c :: body =>
        if c = lbraceC then
          (findClose body).map (fun inner => lbraceC :: (inner ++ [rbraceC]))
        else none
      | [] => none
    else none
  | _ => none

/-- `re.search`: leftmost starting position wins. -/
def fenceSearch : List Char → Option (List Char)
  | [] => none
  | c :: rest =>
    match fenceMatchAt (c :: rest) with
    | some g => some g
    | none => fenceSearch rest

/-- Python `sub in text` on character lists. -/
def hasSubstr (pat : List Char) : List Char → Bool
  | [] => pat.isEmpty
  | c :: cs => pat.isPrefixOf (c :: cs) || hasSubstr pat cs

/-- Python `text.find(c)`: index of the first occurrence, if any. -/
def firstIdxOf (c : Char) (cs : List Char) : Option Nat :=
  cs.findIdx? (fun d => d = c)

/-- Python `text.rfind(c)`: index of the last occurrence, if any. -/
def lastIdxOf (c : Char) (cs : List Char) : Option Nat :=
  match cs.reverse.findIdx? (fun d => d = c) with
  | some i => some (cs.length - 1 - i)
  | none => none

/-- The empty dict returned by the bare `except` branch. -/
def emptyJson : Json := Json.obj []

/-- Cases 2 and 3 of `extract_json_robust`: slice from the first opening brace
to the last closing brace when an opening brace exists, else parse the whole
text; any parse failure is swallowed by the bare `except` into the empty dict.
The slice uses Python semantics `text[a:b]` with `b = rfind + 1` (0 when
`rfind` fails, matching Python's `-1 + 1`).  -/
def bracesOrWhole (cs : List Char) : Json :=
  match firstIdxOf lbraceC cs with
  | some a =>
    let b : Nat :=
      match lastIdxOf rbraceC cs with
      | some e => e + 1
      | none => 0
    match json_loads (String.mk ((cs.drop a).take (b - a))) with
    | some v => v
    | none => emptyJson
  | none =>
    match json_loads (String.mk cs) with
    | some v => v
    | none => emptyJson

/-- Embedding of `extract_json_robust` (`src/graph.py`, lines 17 to 33).
If a fence is present and the regex matches, the captured group is parsed and
a failure there already returns the empty dict (the `try` spans all cases, so
case 2 is not attempted after a failed parse of the group).  -/
def extract_json_robust (text : String) : Json :=
  let cs := text.data
  if hasSubstr fenceChars cs then
    match fenceSearch cs with
    | some grp =>
      match json_loads (String.mk grp) with
      | some v => v
      | none => emptyJson
    | none => bracesOrWhole cs
  else bracesOrWhole cs

/-! ## Configuration and workflow state (`src/schemas.py`) -/

/-- The decision thresholds of `class Config`; kept abstract so the theorems
cover every runtime-injected configuration, with `defaultConfig` matching the
source constants.  -/
structure Config where
  MIN_CONFIDENCE_TO_PUBLISH : ℚ
  MAX_RETRY_ATTEMPTS : Nat
  MIN_EVIDENCE_CHARS : Nat

/-- The constants of `src/schemas.py`. -/
def defaultConfig : Config :=
  { MIN_CONFIDENCE_TO_PUBLISH := 65 / 100
    MAX_RETRY_ATTEMPTS := 2
    MIN_EVIDENCE_CHARS := 10 }

/-- The terminal decision literal. -/
inductive Decision where
  | PUBLISH
  | HOLD
deriving DecidableEq

/-- The `ProposalState` TypedDict.  The three terminal fields are `Option`s
because `main.py` builds the initial dict without them.  The taxonomy dict is
an association list from tag name to definition text.  -/
structure ProposalState where
  proposal_id : String
  description : String
  taxonomy : List (String × String)
  proposed_tags : List String
  evidence : String
  reasoning : String
  validation_passed : Bool
  validation_issues : List String
  retag_count : Nat
  confidence_score : Option ℚ
  decision : Option Decision
  decision_rationale : Option String

/-- The key set of the taxonomy dict, in insertion order. -/
def keyList (tax : List (String × String)) : List String := tax.map Prod.fst

/-! ## Python display helpers

`validator_node` interpolates a Python `set` and `scorer_node` a Python
`list` into f-strings.  A Python set displays its elements in hash order;
since sets are extensional, the embedding renders the canonical (sorted,
duplicate-free) form.  `repr` of a string uses single quotes, switching to
double quotes when the string itself contains a single quote.  -/

/-- Python `repr` of a string (faithful for strings without backslashes or
both quote kinds, which covers every string the workflow interpolates).  -/
def pyStrRepr (s : String) : String :=
  if s.data.contains squoteC then
    String.singleton dquoteC ++ s ++ String.singleton dquoteC
  else
    String.singleton squoteC ++ s ++ String.singleton squoteC

/-- Canonical representation of `set(l)`: sorted and duplicate-free. -/
def setOfList (l : List String) : List String :=
  List.insertionSort (fun a b => a ≤ b) l.dedup

/-- Display of a nonempty Python set of strings. -/
def showTagSet (ts : List String) : String :=
  "\x7b" ++ String.intercalate ", " (ts.map pyStrRepr) ++ "\x7d"

/-- Display of a Python list of strings. -/
def pyListRepr (l : List String) : String :=
  "[" ++ String.intercalate ", " (l.map pyStrRepr) ++ "]"

/-- Decimal display of a rational that is a multiple of 1/100, as Python
prints the corresponding float (trailing zero trimmed, `1.0` style kept).  -/
def fmtHundredths (q : ℚ) : String :=
  let n : ℤ := round (q * 100)
  let ip := n / 100
  let fp := (n % 100).toNat
  toString ip ++ "." ++
    (if fp % 10 = 0 then toString (fp / 10)
     else if fp < 10 then "0" ++ toString fp
     else toString fp)

/-! ## The graph nodes (`src/graph.py`) -/

/-- Outcome of one call of the external classifier: either the three fields
read out of the extracted JSON, or a raised exception with its message.  -/
inductive TagResult where
  | ok (tags : List String) (evidence : String) (reasoning : String)
  | error (msg : String)

/-- Embedding of `tagger_node` (lines 37 to 82) over a classifier oracle.
The `try` block writes the three model-output fields; the `except` branch
writes the error note into `reasoning` and clears `proposed_tags` — and only
those two fields.  -/
def tagger_node (oracle : ProposalState → TagResult) (s : ProposalState) : ProposalState :=
  match oracle s with
  | TagResult.ok tags ev reas =>
    { s with proposed_tags := tags, evidence := ev, reasoning := reas }
  | TagResult.error msg =>
    { s with reasoning := "LLM Error: " ++ msg, proposed_tags := [] }

/-- The offending tag set of check 1, canonically displayed:
`set(proposed_tags) - set(taxonomy.keys())`.  -/
def invalidTagSet (s : ProposalState) : List String :=
  setOfList (s.proposed_tags.filter (fun t => !(keyList s.taxonomy).contains t))

/-- The message of check 1. -/
def invalidTagsMsg (s : ProposalState) : String :=
  "Invalid tags: " ++ showTagSet (invalidTagSet s)

/-- Embedding of `validator_node` (lines 85 to 111): three independent checks
whose issues are collected in order, `validation_passed` iff none fired.  -/
def validator_node (cfg : Config) (s : ProposalState) : ProposalState :=
  let issues :=
    (if s.proposed_tags.all (fun t => (keyList s.taxonomy).contains t) then []
     else [invalidTagsMsg s]) ++
    (if s.proposed_tags.isEmpty then ["No tags selected"] else []) ++
    (if s.evidence.length < cfg.MIN_EVIDENCE_CHARS then ["Evidence too short"] else [])
  { s with validation_issues := issues, validation_passed := issues.isEmpty }

/-- Embedding of `retry_node` (lines 114 to 122). -/
def retry_node (s : ProposalState) : ProposalState :=
  { s with retag_count := s.retag_count + 1 }

/-- The raw additive score of `scorer_node` before rounding. -/
def rawScore (s : ProposalState) : ℚ :=
  (if s.validation_passed then 1 / 2 else 0) +
  (if s.evidence.length > 30 then 3 / 10 else 0) +
  (if s.reasoning.length > 15 then 1 / 5 else 0)

/-- Python `round(x, 2)`; on the score lattice (exact hundredths) banker's
rounding and round-half-up agree, both being the identity.  -/
def round2 (q : ℚ) : ℚ := (round (q * 100) : ℤ) / 100

/-- Embedding of `scorer_node` (lines 125 to 154): store the rounded score,
then compare the unrounded score against the publish threshold.  -/
def scorer_node (cfg : Config) (s : ProposalState) : ProposalState :=
  let score := rawScore s
  let s1 := { s with confidence_score := some (round2 score) }
  if cfg.MIN_CONFIDENCE_TO_PUBLISH ≤ score then
    { s1 with
        decision := some Decision.PUBLISH
        decision_rationale :=
          some ("Score " ++ fmtHundredths score ++ " >= "
                ++ fmtHundredths cfg.MIN_CONFIDENCE_TO_PUBLISH) }
  else
    { s1 with
        decision := some Decision.HOLD
        decision_rationale := some ("Issues: " ++ pyListRepr s.validation_issues) }

/-- The two labels returned by the conditional edge. -/
inductive Route where
  | retry
  | score
deriving DecidableEq

/-- Embedding of `should_retry` (lines 157 to 165). -/
def should_retry (cfg : Config) (s : ProposalState) : Route :=
  if s.validation_passed = false ∧ s.retag_count < cfg.MAX_RETRY_ATTEMPTS then
    Route.retry
  else
    Route.score

/-- The compiled graph of `build_graph` (lines 169 to 198), fuel-bounded:
tagger, then validator, then either the retry loop-back or the scorer and the
terminal edge.  Returns the terminal state and the number of tagger (i.e.
classifier) invocations; `none` only when the fuel is insufficient.  The
tagger and validator nodes are parameters so the theorems can quantify over
classifier oracles and over always-failing validators.  -/
def runGraph (tag val : ProposalState → ProposalState) (cfg : Config) :
    Nat → ProposalState → Option (ProposalState × Nat)
  | 0, _ => none
  | fuel + 1, s =>
    let s1 := val (tag s)
    match should_retry cfg s1 with
    | Route.retry =>
      (runGraph tag val cfg fuel (retry_node s1)).map (fun p => (p.1, p.2 + 1))
    | Route.score => some (scorer_node cfg s1, 1)

/-- The three score components as an explicit function of three booleans. -/
def scoreOf (a b c : Bool) : ℚ :=
  (if a then 1 / 2 else 0) + (if b then 3 / 10 else 0) + (if c then 1 / 5 else 0)

/-! ## Concrete fixtures for witnesses -/

/-- A fresh initial state as `main.py` builds it (`reasoning` is absent in the
Python dict and is materialised here as the empty string).  -/
def iniState : ProposalState :=
  { proposal_id := "p1"
    description := "sample text"
    taxonomy := [("A", "def A"), ("B", "def B")]
    proposed_tags := []
    evidence := ""
    reasoning := ""
    validation_passed := false
    validation_issues := []
    retag_count := 0
    confidence_score := none
    decision := none
    decision_rationale := none }

/-- An oracle whose classification always passes validation and scores 1.0. -/
def okOracle : ProposalState → TagResult :=
  fun _ => TagResult.ok ["A"]
    "a 40+ character quote from the text......"
    "because of reasons stated"

/-- The terminal state of the witness run with `okOracle`. -/
def finalOk : ProposalState :=
  scorer_node defaultConfig (validator_node defaultConfig (tagger_node okOracle iniState))

/-- An oracle that always fails (models an unreachable service). -/
def downOracle : ProposalState → TagResult :=
  fun _ => TagResult.error "service unreachable"

/-- A validator node that always stamps `validation_passed = false` and writes
one issue, touching nothing else — an always-failing Validator conforming to
the Validator interface of the spec.  -/
def failValidator : ProposalState → ProposalState :=
  fun s => { s with validation_passed := false, validation_issues := ["always failing"] }

/-- A state mid-run that carries a long evidence quote from an earlier
classifier attempt.  -/
def staleState : ProposalState :=
  { iniState with
      proposed_tags := ["A", "C"]
      evidence := "a 40+ character quote from the text......"
      reasoning := "because of reasons stated"
      retag_count := 1 }

/-- A state whose validation passed but whose evidence and reasoning are too
short to publish (the degenerate HOLD edge case).  -/
def passedButShort : ProposalState :=
  { iniState with
      proposed_tags := ["A"]
      evidence := "short quote"
      reasoning := "ok"
      validation_passed := true
      validation_issues := [] }

/-- The parsed form shared by the three extraction cases. -/
def objTagsA : Json :=
  Json.obj [("tags", Json.arr [Json.str "A"]),
            ("evidence", Json.str "x"),
            ("reasoning", Json.str "y")]

/-- Case (a): the object inside a fenced markdown block. -/
def fencedText : String :=
  "```json\n\x7b\"tags\": [\"A\"], \"evidence\": \"x\", \"reasoning\": \"y\"\x7d\n```"

/-- Case (b): the same object embedded mid-sentence, no fencing. -/
def embeddedText : String :=
  "Sure, here is the classification: \x7b\"tags\": [\"A\"], \"evidence\": \"x\", \"reasoning\": \"y\"\x7d as requested."

/-- Case (c): the raw object alone. -/
def rawText : String :=
  "\x7b\"tags\": [\"A\"], \"evidence\": \"x\", \"reasoning\": \"y\"\x7d"

/-- A brace-free prose string that is not JSON. -/
def proseText : String := "The model replied with plain prose and no JSON at all."

/-- A configuration whose publish threshold sits exactly on a reachable score
(0.70), to exercise the inclusive boundary.  -/
def boundaryConfig : Config :=
  { MIN_CONFIDENCE_TO_PUBLISH := 7 / 10
    MAX_RETRY_ATTEMPTS := 2
    MIN_EVIDENCE_CHARS := 10 }

/-- A state whose raw score is exactly 0.70: validation passed, short
evidence, long reasoning.  -/
def boundaryState : ProposalState :=
  { iniState with
      proposed_tags := ["A"]
      evidence := "short quote"
      reasoning := "a sufficiently long reason"
      validation_passed := true
      validation_issues := [] }

/-! ## Helper lemmas -/

lemma invalid_msg_ne_no_tags (x : String) : "Invalid tags: " ++ x ≠ "No tags selected" := by
  intro h
  have h2 : ("Invalid tags: " ++ x).data = "No tags selected".data := by rw [h]
  simp [String.data] at h2

lemma invalid_msg_ne_ev_short (x : String) : "Invalid tags: " ++ x ≠ "Evidence too short" := by
  intro h
  have h2 : ("Invalid tags: " ++ x).data = "Evidence too short".data := by rw [h]
  simp [String.data] at h2

lemma tagger_node_taxonomy (oracle : ProposalState → TagResult) (s : ProposalState) :
    (tagger_node oracle s).taxonomy = s.taxonomy := by
  cases h : oracle s <;> simp [tagger_node, h]

lemma tagger_node_retag (oracle : ProposalState → TagResult) (s : ProposalState) :
    (tagger_node oracle s).retag_count = s.retag_count := by
  cases h : oracle s <;> simp [tagger_node, h]

lemma validator_node_taxonomy (cfg : Config) (s : ProposalState) :
    (validator_node cfg s).taxonomy = s.taxonomy := rfl

lemma validator_node_tags (cfg : Config) (s : ProposalState) :
    (validator_node cfg s).proposed_tags = s.proposed_tags := rfl

lemma retry_node_taxonomy (s : ProposalState) : (retry_node s).taxonomy = s.taxonomy := rfl

lemma scorer_node_tags (cfg : Config) (s : ProposalState) :
    (scorer_node cfg s).proposed_tags = s.proposed_tags := by
  by_cases h : cfg.MIN_CONFIDENCE_TO_PUBLISH ≤ rawScore s <;> simp [scorer_node, h]

lemma scorer_node_taxonomy (cfg : Config) (s : ProposalState) :
    (scorer_node cfg s).taxonomy = s.taxonomy := by
  by_cases h : cfg.MIN_CONFIDENCE_TO_PUBLISH ≤ rawScore s <;> simp [scorer_node, h]

lemma rawScore_le_half_of_not_passed (s : ProposalState) (h : s.validation_passed = false) :
    rawScore s ≤ 1 / 2 := by
  simp only [rawScore, h]
  split_ifs <;> (first | contradiction | norm_num)

lemma rawScore_le_one (s : ProposalState) : rawScore s ≤ 1 := by
  unfold rawScore
  split_ifs <;> norm_num

lemma scoreOf_lattice : ∀ a b c : Bool, round2 (scoreOf a b c) = scoreOf a b c
    ∧ scoreOf a b c ∈ [(0:ℚ), 1/5, 3/10, 1/2, 7/10, 4/5, 1] := by
  intro a b c
  cases a <;> cases b <;> cases c <;> norm_num [scoreOf, round2]

lemma rawScore_eq_scoreOf (s : ProposalState) :
    rawScore s = scoreOf s.validation_passed (decide (s.evidence.length > 30))
      (decide (s.reasoning.length > 15)) := by
  unfold rawScore scoreOf
  by_cases h1 : s.validation_passed <;> by_cases h2 : s.evidence.length > 30 <;>
    by_cases h3 : s.reasoning.length > 15 <;> simp [h1, h2, h3]

lemma rawScore_ignores_issues (s : ProposalState) (iss : List String) :
    rawScore { s with validation_issues := iss } = rawScore s := rfl

lemma validator_passed_iff_issues_nil (cfg : Config) (s : ProposalState) :
    (validator_node cfg s).validation_passed = true
      ↔ (validator_node cfg s).validation_issues = [] := by
  simp [validator_node]

lemma validator_passed_subset (cfg : Config) (s : ProposalState)
    (h : (validator_node cfg s).validation_passed = true) :
    ∀ t ∈ s.proposed_tags, t ∈ keyList s.taxonomy := by
  intro t ht
  simp [validator_node] at h
  exact h.1 t ht

/-! ## Claim theorems -/

/-- Claim C9: the retry node increments `retag_count` by exactly one and
leaves every other field of the state unchanged.  -/
theorem retry_node_increments_only (s : ProposalState) :
    (retry_node s).retag_count = s.retag_count + 1
  ∧ (retry_node s).proposal_id = s.proposal_id
  ∧ (retry_node s).description = s.description
  ∧ (retry_node s).taxonomy = s.taxonomy
  ∧ (retry_node s).proposed_tags = s.proposed_tags
  ∧ (retry_node s).evidence = s.evidence
  ∧ (retry_node s).reasoning = s.reasoning
  ∧ (retry_node s).validation_passed = s.validation_passed
  ∧ (retry_node s).validation_issues = s.validation_issues
  ∧ (retry_node s).confidence_score = s.confidence_score
  ∧ (retry_node s).decision = s.decision
  ∧ (retry_node s).decision_rationale = s.decision_rationale :=
  ⟨rfl, rfl, rfl, rfl, rfl, rfl, rfl, rfl, rfl, rfl, rfl, rfl⟩

/-- Claim C6, counterexample: when the classifier call raises on a state that
still carries the evidence of an earlier attempt, the resulting evidence is
that stale quote, not the empty string the claim asserts.  -/
theorem tagger_error_stale_evidence_cex :
    ¬ ((tagger_node downOracle staleState).evidence = "") := by
  decide

/-- Claim C6 as amended: when the classifier call fails with any exception,
the tagger node recovers locally (it is a total function): the resulting
state has `proposed_tags = []` and `reasoning` set to the error note, while
`evidence` is left at its previous value (hence empty only when it already
was, as on a first attempt).  -/
theorem tagger_error_branch (oracle : ProposalState → TagResult) (s : ProposalState)
    (msg : String) (h : oracle s = TagResult.error msg) :
    (tagger_node oracle s).proposed_tags = []
  ∧ (tagger_node oracle s).reasoning = "LLM Error: " ++ msg
  ∧ (tagger_node oracle s).evidence = s.evidence := by
  simp [tagger_node, h]

/-- Witness for C6's amended theorem at a concrete failing call. -/
theorem tagger_error_branch_witness :
    (tagger_node downOracle staleState).proposed_tags = []
  ∧ (tagger_node downOracle staleState).reasoning = "LLM Error: service unreachable"
  ∧ (tagger_node downOracle staleState).evidence
      = "a 40+ character quote from the text......" := by
  obtain ⟨a, b, c⟩ := tagger_error_branch downOracle staleState "service unreachable" rfl
  exact ⟨a, b, c.trans rfl⟩

/-- Claim C3: the validator evaluates all three checks and collects every
issue — the invalid-tags message (naming the offending tag set) is present
iff some proposed tag is not a taxonomy key, the no-tags message iff
`proposed_tags` is empty, the short-evidence message iff the evidence length
is below the configured minimum, and `validation_passed` holds iff the issue
list is empty.  -/
theorem validator_three_checks (cfg : Config) (s : ProposalState) :
    (invalidTagsMsg s ∈ (validator_node cfg s).validation_issues
        ↔ ∃ t ∈ s.proposed_tags, t ∉ keyList s.taxonomy)
  ∧ ("No tags selected" ∈ (validator_node cfg s).validation_issues
        ↔ s.proposed_tags = [])
  ∧ ("Evidence too short" ∈ (validator_node cfg s).validation_issues
        ↔ s.evidence.length < cfg.MIN_EVIDENCE_CHARS)
  ∧ ((validator_node cfg s).validation_passed = true
        ↔ (validator_node cfg s).validation_issues = []) := by
  refine ⟨?_, ?_, ?_, validator_passed_iff_issues_nil cfg s⟩
  · simp [validator_node, invalidTagsMsg, invalid_msg_ne_no_tags, invalid_msg_ne_ev_short]
  · simp [validator_node, invalidTagsMsg, (invalid_msg_ne_no_tags _).symm]
  · simp [validator_node, invalidTagsMsg, (invalid_msg_ne_ev_short _).symm]

/-- Witness for C3: on a state proposing the hallucinated tag C the
invalid-tags message is collected.  -/
theorem validator_three_checks_witness :
    invalidTagsMsg staleState ∈ (validator_node defaultConfig staleState).validation_issues :=
  (validator_three_checks defaultConfig staleState).1.mpr ⟨"C", by decide, by decide⟩

/-- Claim C4: the stored confidence score is the pure function `scoreOf` of
exactly the three booleans (validation passed, evidence longer than 30,
reasoning longer than 15) with weights 0.5, 0.3, 0.2; rounding to two
decimals is the identity on this lattice, and the value always lies in
the set of the seven reachable values 0, 0.2, 0.3, 0.5, 0.7, 0.8, 1.  -/
theorem scorer_confidence_function (cfg : Config) (s : ProposalState) :
    (scorer_node cfg s).confidence_score
        = some (scoreOf s.validation_passed (decide (s.evidence.length > 30))
                  (decide (s.reasoning.length > 15)))
  ∧ round2 (rawScore s) = rawScore s
  ∧ rawScore s = scoreOf s.validation_passed (decide (s.evidence.length > 30))
        (decide (s.reasoning.length > 15))
  ∧ rawScore s ∈ [(0:ℚ), 1/5, 3/10, 1/2, 7/10, 4/5, 1] := by
  have he := rawScore_eq_scoreOf s
  have hb := scoreOf_lattice s.validation_passed (decide (s.evidence.length > 30))
    (decide (s.reasoning.length > 15))
  have hc : (scorer_node cfg s).confidence_score = some (round2 (rawScore s)) := by
    by_cases h : cfg.MIN_CONFIDENCE_TO_PUBLISH ≤ rawScore s <;> simp [scorer_node, h]
  refine ⟨?_, ?_, he, ?_⟩
  · rw [hc, he, hb.1]
  · rw [he, hb.1]
  · rw [he]
    exact hb.2

/-- Claim C5: the publish decision is exactly the inclusive threshold test —
PUBLISH iff the score reaches `MIN_CONFIDENCE_TO_PUBLISH`, HOLD iff it falls
short, and equality with the threshold publishes.  -/
theorem scorer_threshold_inclusive (cfg : Config) (s : ProposalState) :
    ((scorer_node cfg s).decision = some Decision.PUBLISH
        ↔ cfg.MIN_CONFIDENCE_TO_PUBLISH ≤ rawScore s)
  ∧ ((scorer_node cfg s).decision = some Decision.HOLD
        ↔ rawScore s < cfg.MIN_CONFIDENCE_TO_PUBLISH)
  ∧ (rawScore s = cfg.MIN_CONFIDENCE_TO_PUBLISH
        → (scorer_node cfg s).decision = some Decision.PUBLISH) := by
  by_cases h : cfg.MIN_CONFIDENCE_TO_PUBLISH ≤ rawScore s
  · refine ⟨by simp [scorer_node, h], ?_, fun _ => by simp [scorer_node, h]⟩
    simp [scorer_node, h, not_lt.mpr h]
  · refine ⟨by simp [scorer_node, h], ?_, fun he => absurd (le_of_eq he.symm) h⟩
    simp [scorer_node, h, not_le.mp h]

/-- Witness for C5 at the boundary: a score of exactly 0.70 against a 0.70
threshold publishes.  -/
theorem scorer_threshold_inclusive_witness :
    (scorer_node boundaryConfig boundaryState).decision = some Decision.PUBLISH :=
  (scorer_threshold_inclusive boundaryConfig boundaryState).2.2 (by
    norm_num [rawScore, boundaryState, iniState, boundaryConfig,
      show "short quote".length = 11 from rfl,
      show "a sufficiently long reason".length = 26 from rfl])

/-- Claim C8: the rationale is shaped by the decision — a PUBLISH rationale
states the score and the threshold and is independent of the validation
issues, a HOLD rationale lists `validation_issues` verbatim, and a HOLD with
an empty issue list degenerates to the literal text Issues colon brackets.  -/
theorem scorer_rationale_forms (cfg : Config) (s : ProposalState) :
    ((scorer_node cfg s).decision = some Decision.PUBLISH →
        (scorer_node cfg s).decision_rationale
          = some ("Score " ++ fmtHundredths (rawScore s) ++ " >= "
                  ++ fmtHundredths cfg.MIN_CONFIDENCE_TO_PUBLISH)
      ∧ ∀ iss : List String,
          (scorer_node cfg { s with validation_issues := iss }).decision_rationale
            = (scorer_node cfg s).decision_rationale)
  ∧ ((scorer_node cfg s).decision = some Decision.HOLD →
        (scorer_node cfg s).decision_rationale
          = some ("Issues: " ++ pyListRepr s.validation_issues))
  ∧ ((scorer_node cfg s).decision = some Decision.HOLD → s.validation_issues = [] →
        (scorer_node cfg s).decision_rationale = some "Issues: []") := by
  by_cases h : cfg.MIN_CONFIDENCE_TO_PUBLISH ≤ rawScore s
  · refine ⟨fun _ => ⟨by simp [scorer_node, h], ?_⟩, ?_, ?_⟩
    · intro iss
      have h2 : cfg.MIN_CONFIDENCE_TO_PUBLISH ≤ rawScore { s with validation_issues := iss } := by
        rwa [rawScore_ignores_issues]
      simp [scorer_node, h, h2, rawScore_ignores_issues]
    · intro hd
      simp [scorer_node, h] at hd
    · intro hd
      simp [scorer_node, h] at hd
  · refine ⟨fun hd => ?_, fun _ => by simp [scorer_node, h], fun _ hiss => ?_⟩
    · simp [scorer_node, h] at hd
    · simp [scorer_node, h, hiss, pyListRepr]
      rfl

/-- Witness for C8: a passed validation with short evidence and reasoning
holds with the degenerate empty-issues rationale.  -/
theorem scorer_rationale_forms_witness :
    (scorer_node defaultConfig passedButShort).decision_rationale = some "Issues: []" :=
  (scorer_rationale_forms defaultConfig passedButShort).2.2
    (by norm_num [scorer_node, rawScore, passedButShort, iniState, defaultConfig,
      show "short quote".length = 11 from rfl, show "ok".length = 2 from rfl])
    rfl

/-- Claim C10: the validator's outcome depends only on the set of proposed
tags — for two non-empty tag lists with the same members (permutations or
duplications of each other) it produces identical `validation_passed` and
identical `validation_issues`.  -/
theorem validator_tag_set_invariance (cfg : Config) (s : ProposalState) (tags2 : List String)
    (hmem : ∀ t, t ∈ s.proposed_tags ↔ t ∈ tags2)
    (h1 : s.proposed_tags ≠ []) (h2 : tags2 ≠ []) :
    (validator_node cfg { s with proposed_tags := tags2 }).validation_passed
        = (validator_node cfg s).validation_passed
  ∧ (validator_node cfg { s with proposed_tags := tags2 }).validation_issues
        = (validator_node cfg s).validation_issues := by
  have hall : (tags2.all (fun t => (keyList s.taxonomy).contains t))
      = (s.proposed_tags.all (fun t => (keyList s.taxonomy).contains t)) := by
    apply Bool.coe_iff_coe.mp
    simp only [List.all_eq_true]
    constructor
    · intro hA t ht
      exact hA t ((hmem t).mp ht)
    · intro hA t ht
      exact hA t ((hmem t).mpr ht)
  have hfilter : ∀ t, t ∈ tags2.filter (fun t => !(keyList s.taxonomy).contains t)
      ↔ t ∈ s.proposed_tags.filter (fun t => !(keyList s.taxonomy).contains t) := by
    intro t
    simp only [List.mem_filter, hmem t]
  have hset : setOfList (tags2.filter (fun t => !(keyList s.taxonomy).contains t))
      = setOfList (s.proposed_tags.filter (fun t => !(keyList s.taxonomy).contains t)) := by
    haveI : IsAntisymm String (fun a b => a ≤ b) := ⟨fun a b h h2 => le_antisymm h h2⟩
    have hd : List.Perm
        (tags2.filter (fun t => !(keyList s.taxonomy).contains t)).dedup
        (s.proposed_tags.filter (fun t => !(keyList s.taxonomy).contains t)).dedup := by
      refine (List.perm_ext_iff_of_nodup (List.nodup_dedup _) (List.nodup_dedup _)).mpr ?_
      intro a
      simp only [List.mem_dedup]
      exact hfilter a
    exact List.eq_of_perm_of_sorted
      ((List.perm_insertionSort _ _).trans (hd.trans (List.perm_insertionSort _ _).symm))
      (List.sorted_insertionSort _ _) (List.sorted_insertionSort _ _)
  have e2 : tags2.isEmpty = false := by
    simpa using h2
  have e1 : s.proposed_tags.isEmpty = false := by
    simpa using h1
  have hIss : (validator_node cfg { s with proposed_tags := tags2 }).validation_issues
      = (validator_node cfg s).validation_issues := by
    simp only [validator_node]
    rw [hall, e1, e2]
    simp only [invalidTagsMsg, invalidTagSet]
    rw [hset]
  refine ⟨?_, hIss⟩
  simp only [validator_node]
  rw [hall, e1, e2]
  simp only [invalidTagsMsg, invalidTagSet]
  rw [hset]

/-- Witness for C10: reversing the tag list of a state changes neither the
validation outcome nor the issue list.  -/
theorem validator_tag_set_invariance_witness :
    (validator_node defaultConfig { staleState with proposed_tags := ["C", "A"] }).validation_issues
      = (validator_node defaultConfig staleState).validation_issues :=
  (validator_tag_set_invariance defaultConfig staleState ["C", "A"]
    (fun t => by simp [staleState, iniState]; exact Or.comm)
    (by decide) (by decide)).2

/-! ## Whole-run lemmas -/

lemma runGraph_terminal_shape (tag val : ProposalState → ProposalState) (cfg : Config)
    (htag : ∀ u, (tag u).taxonomy = u.taxonomy) (hval : ∀ u, (val u).taxonomy = u.taxonomy) :
    ∀ fuel s final n, runGraph tag val cfg fuel s = some (final, n) →
      ∃ s1, final = scorer_node cfg (val (tag s1)) ∧ (val (tag s1)).taxonomy = s.taxonomy := by
  intro fuel
  induction fuel with
  | zero =>
    intro s final n h
    simp [runGraph] at h
  | succ fuel ih =>
    intro s final n h
    rw [runGraph] at h
    cases hr : should_retry cfg (val (tag s)) with
    | retry =>
      rw [hr] at h
      obtain ⟨⟨f2, n2⟩, hrun2, heq⟩ := Option.map_eq_some'.mp h
      obtain ⟨s1, hfin, htax⟩ := ih (retry_node (val (tag s))) f2 n2 hrun2
      have hfe : f2 = final := by
        have := congrArg Prod.fst heq
        simpa using this
      refine ⟨s1, hfe ▸ hfin, ?_⟩
      rw [htax, retry_node_taxonomy, hval, htag]
    | score =>
      rw [hr] at h
      have h1 : scorer_node cfg (val (tag s)) = final := by
        have := congrArg (fun o => Option.map Prod.fst o) h
        simpa using this
      exact ⟨s, h1.symm, by rw [hval, htag]⟩

lemma runGraph_always_fail_run (tag val : ProposalState → ProposalState) (cfg : Config)
    (htag_retag : ∀ u, (tag u).retag_count = u.retag_count)
    (hval_fail : ∀ u, (val u).validation_passed = false)
    (hval_retag : ∀ u, (val u).retag_count = u.retag_count) :
    ∀ fuel s, cfg.MAX_RETRY_ATTEMPTS - s.retag_count < fuel →
      s.retag_count ≤ cfg.MAX_RETRY_ATTEMPTS →
      ∃ s1, runGraph tag val cfg fuel s
          = some (scorer_node cfg (val (tag s1)),
                  cfg.MAX_RETRY_ATTEMPTS - s.retag_count + 1) := by
  intro fuel
  induction fuel with
  | zero =>
    intro s hlt hle
    exact absurd hlt (Nat.not_lt_zero _)
  | succ fuel ih =>
    intro s hlt hle
    by_cases hlt2 : s.retag_count < cfg.MAX_RETRY_ATTEMPTS
    · have hroute : should_retry cfg (val (tag s)) = Route.retry := by
        simp [should_retry, hval_fail (tag s), hval_retag (tag s), htag_retag s, hlt2]
      have hretag2 : (retry_node (val (tag s))).retag_count = s.retag_count + 1 := by
        simp [retry_node, hval_retag, htag_retag]
      obtain ⟨s1, hrun⟩ := ih (retry_node (val (tag s)))
        (by rw [hretag2]; omega) (by rw [hretag2]; omega)
      refine ⟨s1, ?_⟩
      rw [runGraph, hroute, hrun]
      have harith : cfg.MAX_RETRY_ATTEMPTS - (s.retag_count + 1) + 1 + 1
          = cfg.MAX_RETRY_ATTEMPTS - s.retag_count + 1 := by omega
      simp [hretag2, harith]
    · have hk : s.retag_count = cfg.MAX_RETRY_ATTEMPTS := by omega
      have hroute : should_retry cfg (val (tag s)) = Route.score := by
        simp [should_retry, hval_retag (tag s), htag_retag s, hk]
      refine ⟨s, ?_⟩
      rw [runGraph, hroute, hk]
      simp

/-- Claim C1: every run of the workflow that terminates with decision
PUBLISH has all of its terminal proposed tags among the keys of the input
taxonomy, for any classifier oracle.  The threshold hypothesis (0.5 below the
publish bound, true of the default 0.65) is what forces a PUBLISH through a
passed validation, whose subset check is on the very tags that reach the
terminal state.  -/
theorem publish_implies_tags_in_taxonomy
    (cfg : Config) (oracle : ProposalState → TagResult) (s0 final : ProposalState)
    (fuel n : Nat)
    (hthr : (1:ℚ)/2 < cfg.MIN_CONFIDENCE_TO_PUBLISH)
    (hrun : runGraph (tagger_node oracle) (validator_node cfg) cfg fuel s0 = some (final, n))
    (hpub : final.decision = some Decision.PUBLISH) :
    ∀ t ∈ final.proposed_tags, t ∈ keyList s0.taxonomy := by
  obtain ⟨s1, hfin, htax⟩ := runGraph_terminal_shape (tagger_node oracle) (validator_node cfg) cfg
      (tagger_node_taxonomy oracle) (validator_node_taxonomy cfg) fuel s0 final n hrun
  have hsc : cfg.MIN_CONFIDENCE_TO_PUBLISH
      ≤ rawScore (validator_node cfg (tagger_node oracle s1)) := by
    by_contra hn
    rw [hfin] at hpub
    simp [scorer_node, hn] at hpub
  have hpass : (validator_node cfg (tagger_node oracle s1)).validation_passed = true := by
    by_contra hnp
    have hle : rawScore (validator_node cfg (tagger_node oracle s1)) ≤ 1/2 :=
      rawScore_le_half_of_not_passed _ (by simpa using hnp)
    exact absurd hsc (not_le.mpr (lt_of_le_of_lt hle hthr))
  have hsub := validator_passed_subset cfg (tagger_node oracle s1) hpass
  intro t ht
  rw [hfin, scorer_node_tags] at ht
  have ht' : t ∈ (tagger_node oracle s1).proposed_tags := ht
  have hmem := hsub t ht'
  rw [show (tagger_node oracle s1).taxonomy
        = (validator_node cfg (tagger_node oracle s1)).taxonomy from rfl, htax] at hmem
  exact hmem

/-- Witness for C1: a run that publishes the tag A from a taxonomy with keys
A and B, where the published tag is indeed a taxonomy key.  -/
theorem publish_implies_tags_in_taxonomy_witness : "A" ∈ keyList iniState.taxonomy := by
  have htags : finalOk.proposed_tags = ["A"] := by
    rw [finalOk, scorer_node_tags]
    rfl
  exact publish_implies_tags_in_taxonomy defaultConfig okOracle iniState finalOk 3 1
    (by norm_num [defaultConfig])
    rfl
    (by norm_num [finalOk, scorer_node, rawScore, validator_node, tagger_node, okOracle,
      iniState, defaultConfig, keyList,
      show "a 40+ character quote from the text......".length = 41 from rfl,
      show "because of reasons stated".length = 25 from rfl])
    "A" (by rw [htags]; exact List.mem_singleton.mpr rfl)

/-- Claim C2: against any validator node that always stamps
`validation_passed = false` (and, per the Validator interface, does not touch
the retry counter), a run started at `retag_count = 0` with sufficient fuel
invokes the classifier exactly `MAX_RETRY_ATTEMPTS + 1` times and terminates
with decision HOLD (the threshold hypothesis holds for the default 0.65).  -/
theorem always_failing_validator_run
    (cfg : Config) (oracle : ProposalState → TagResult) (val : ProposalState → ProposalState)
    (hval_fail : ∀ u, (val u).validation_passed = false)
    (hval_retag : ∀ u, (val u).retag_count = u.retag_count)
    (hthr : (1:ℚ)/2 < cfg.MIN_CONFIDENCE_TO_PUBLISH)
    (s0 : ProposalState) (h0 : s0.retag_count = 0)
    (fuel : Nat) (hfuel : cfg.MAX_RETRY_ATTEMPTS < fuel) :
    ∃ final, runGraph (tagger_node oracle) val cfg fuel s0
        = some (final, cfg.MAX_RETRY_ATTEMPTS + 1)
      ∧ final.decision = some Decision.HOLD := by
  obtain ⟨s1, hrun⟩ := runGraph_always_fail_run (tagger_node oracle) val cfg
      (tagger_node_retag oracle) hval_fail hval_retag fuel s0 (by omega) (by omega)
  rw [h0, Nat.sub_zero] at hrun
  refine ⟨_, hrun, ?_⟩
  have hps : (val (tagger_node oracle s1)).validation_passed = false := hval_fail _
  have hlt : rawScore (val (tagger_node oracle s1)) < cfg.MIN_CONFIDENCE_TO_PUBLISH :=
    lt_of_le_of_lt (rawScore_le_half_of_not_passed _ hps) hthr
  simp [scorer_node, not_le.mpr hlt]

/-- Witness for C2: with the default configuration, a failing classifier and
an always-failing validator, the run makes exactly 3 classifier calls and
holds.  -/
theorem always_failing_validator_run_witness :
    (runGraph (tagger_node downOracle) failValidator defaultConfig 3 iniState).map Prod.snd
        = some 3
  ∧ (runGraph (tagger_node downOracle) failValidator defaultConfig 3 iniState).map
        (fun p => p.1.decision) = some (some Decision.HOLD) := by
  obtain ⟨final, hrun, hdec⟩ := always_failing_validator_run defaultConfig downOracle
    failValidator (fun _ => rfl) (fun _ => rfl) (by norm_num [defaultConfig])
    iniState rfl 3 (by decide)
  rw [hrun]
  exact ⟨rfl, by simp [hdec]⟩

/-! ## Extraction robustness -/

lemma fenceMatchAt_mem (cs g : List Char) (h : fenceMatchAt cs = some g) : lbraceC ∈ cs := by
  match cs with
  | [] => simp [fenceMatchAt] at h
  | [b1] => simp [fenceMatchAt] at h
  | [b1, b2] => simp [fenceMatchAt] at h
  | b1 :: b2 :: b3 :: rest =>
    simp only [fenceMatchAt] at h
    split at h
    · split at h
      · rename_i c body heq
        split at h
        · rename_i hc
          have h1 : c ∈ List.dropWhile isPySpace
              (if jsonTagChars.isPrefixOf rest = true then List.drop 4 rest else rest) := by
            rw [heq]
            exact List.mem_cons_self _ _
          have h2 : c ∈ (if jsonTagChars.isPrefixOf rest = true then List.drop 4 rest
              else rest) :=
            (List.dropWhile_sublist _).subset h1
          have h3 : c ∈ rest := by
            by_cases hj : jsonTagChars.isPrefixOf rest = true
            · rw [if_pos hj] at h2
              exact (List.drop_sublist _ _).subset h2
            · rwa [if_neg hj] at h2
          rw [hc] at h3
          exact List.mem_cons_of_mem _ (List.mem_cons_of_mem _ (List.mem_cons_of_mem _ h3))
        · simp at h
      · simp at h
    · simp at h

lemma fenceSearch_eq_none (cs : List Char) (h : lbraceC ∉ cs) : fenceSearch cs = none := by
  induction cs with
  | nil => rfl
  | cons c rest ih =>
    rw [fenceSearch]
    cases hm : fenceMatchAt (c :: rest) with
    | some g => exact absurd (fenceMatchAt_mem _ _ hm) h
    | none => exact ih (fun hmem => h (List.mem_cons_of_mem _ hmem))

lemma firstIdxOf_lbrace_none (cs : List Char) (h : lbraceC ∉ cs) :
    firstIdxOf lbraceC cs = none := by
  simp only [firstIdxOf, List.findIdx?_eq_none_iff]
  intro x hx
  simp
  exact fun he => h (he ▸ hx)

/-- Claim C7: `extract_json_robust` yields the identical parsed dictionary on
(a) the fenced json block, (b) the same object embedded mid-sentence, and
(c) the raw object alone; and on any brace-free string that the JSON parser
rejects it returns the empty structure (it is a total function, so nothing
is raised).  -/
theorem extract_json_robust_cases :
    (extract_json_robust fencedText = objTagsA
      ∧ extract_json_robust embeddedText = objTagsA
      ∧ extract_json_robust rawText = objTagsA)
  ∧ ∀ text : String, (∀ c ∈ text.data, c ≠ lbraceC ∧ c ≠ rbraceC) →
      json_loads text = none → extract_json_robust text = emptyJson := by
  refine ⟨⟨by rfl, by rfl, by rfl⟩, ?_⟩
  intro text hnb hnj
  have hnotin : lbraceC ∉ text.data := fun hm => ((hnb _ hm).1 rfl)
  have hbw : bracesOrWhole text.data = emptyJson := by
    unfold bracesOrWhole
    rw [firstIdxOf_lbrace_none _ hnotin]
    rw [show String.mk text.data = text from rfl, hnj]
  unfold extract_json_robust
  by_cases hf : hasSubstr fenceChars text.data
  · rw [if_pos hf, fenceSearch_eq_none text.data hnotin]
    exact hbw
  · rw [if_neg hf]
    exact hbw

/-- Witness for C7: concrete brace-free prose maps to the empty structure. -/
theorem extract_json_robust_cases_witness : extract_json_robust proseText = emptyJson :=
  extract_json_robust_cases.2 proseText (by decide) rfl

end Tagging
